import Mathlib

/-!
Verification of the bennettbot job scheduling and dispatch engine.

Shallow embedding of `bennettbot/dispatcher.py` and
`bennettbot/webserver/github.py`, with the scheduler operations (whose
module is not part of the sources at hand) modelled from the spec where
needed.  Python strings are embedded as `String` / `List Char`, machine
integers (process return codes) as `Int`, fallible code as `Except`.
-/

namespace Bennettbot

/-- Named characters, to keep quoting characters out of character literals. -/
def squote : Char := Char.ofNat 39

/-- The double-quote character. -/
def dquote : Char := Char.ofNat 34

/-- The backslash character. -/
def bslash : Char := Char.ofNat 92

/-- The backtick character. -/
def btick : Char := Char.ofNat 96

/-- The newline character. -/
def nlChar : Char := Char.ofNat 10

/-- The tab character. -/
def tabChar : Char := Char.ofNat 9

/-- The opening curly brace character. -/
def lbrace : Char := Char.ofNat 123

/-- The closing curly brace character. -/
def rbrace : Char := Char.ofNat 125

/-!  ## Data model

`Job` embeds the job record handed to `JobDispatcher` (fields used by
`dispatcher.py`: `id`, `type`, `args`, `channel`, `thread_ts`, `is_im`).
`JobConfig` embeds the per-job-type configuration read from
`config["jobs"][type]`.  The `run_args_template` is embedded already
split into literal and placeholder segments (Python applies
`str.format` to it). -/

/-- One segment of a command template: a literal piece or a named
placeholder to be filled from the job's `args`. -/
inductive TplPart where
  | lit (s : String)
  | arg (k : String)
deriving DecidableEq

/-- Per-job-type configuration (from `config["jobs"][job_type]`). -/
structure JobConfig where
  runArgsTemplate : List TplPart
  reportStdout : Bool
  reportSuccess : Bool
  reportFormat : String
  callTechSupportOnError : Bool
deriving DecidableEq

/-- A job record as read by `JobDispatcher` from the scheduler. -/
structure Job where
  id : Nat
  type : String
  args : List (String × String)
  channel : String
  threadTs : Option String
  isIm : Bool
deriving DecidableEq

/-- The settings consulted by the dispatcher (`bennettbot/settings.py`
is external; only the names of the constants matter here).  Directory
settings are embedded as lists of path components. -/
structure Settings where
  slackLogsChannel : String
  slackTechSupportChannel : String
  slackAppUsername : String
  logsDir : List String
  hostLogsDir : List String
deriving DecidableEq

/-!  ## A small JSON model

`notify_end` calls `json.load` on the stdout artifact when the report
format is `"blocks"`.  We embed the JSON values and a parser for them.
Restrictions relative to Python's `json`: numbers are integers only and
string escapes cover backslash-quote and backslash-backslash only; no
claim in this development depends on inputs outside this subset. -/

/-- A JSON value (numbers restricted to integers). -/
inductive Json where
  | null
  | bool (b : Bool)
  | num (n : Int)
  | str (s : List Char)
  | arr (xs : List Json)
  | obj (kvs : List (List Char × Json))

/-- Python truthiness of a parsed JSON value (`not msg` in
`notify_end`): `None`, `False`, `0`, `""`, `[]` and `{}` are falsy. -/
def Json.falsy : Json → Bool
  | .null => true
  | .bool b => !b
  | .num n => n == 0
  | .str s => s.isEmpty
  | .arr xs => xs.isEmpty
  | .obj kvs => kvs.isEmpty

/-- JSON whitespace (space, tab, newline, carriage return). -/
def jsonWs (c : Char) : Bool :=
  c = ' ' || c = tabChar || c = nlChar || c = Char.ofNat 13

/-- Drop leading JSON whitespace. -/
def skipWs : List Char → List Char
  | [] => []
  | c :: cs => if jsonWs c then skipWs cs else c :: cs

/-- Parse the body of a JSON string after the opening quote (escapes
restricted as documented on `Json`). -/
def parseJsonStr : Nat → List Char → Except String (List Char × List Char)
  | 0, _ => .error "Unterminated string"
  | _ + 1, [] => .error "Unterminated string"
  | fuel + 1, c :: cs =>
    if c = dquote then .ok ([], cs)
    else if c = bslash then
      match cs with
      | [] => .error "Unterminated string"
      | e :: cs2 =>
        if e = dquote || e = bslash then
          match parseJsonStr fuel cs2 with
          | .ok (s, rest) => .ok (e :: s, rest)
          | .error m => .error m
        else .error "Invalid escape"
    else
      match parseJsonStr fuel cs with
      | .ok (s, rest) => .ok (c :: s, rest)
      | .error m => .error m

/-- Parse a run of decimal digits. -/
def parseDigits : List Char → List Char × List Char
  | [] => ([], [])
  | c :: cs =>
    if c.isDigit then
      let (ds, rest) := parseDigits cs
      (c :: ds, rest)
    else ([], c :: cs)

/-- Digits to a natural number. -/
def digitsToNat (ds : List Char) : Nat :=
  ds.foldl (fun acc c => acc * 10 + (c.toNat - 48)) 0

mutual

/-- Parse one JSON value from the input (after whitespace skipping). -/
def parseJsonVal : Nat → List Char → Except String (Json × List Char)
  | 0, _ => .error "Expecting value"
  | fuel + 1, input =>
    match skipWs input with
    | [] => .error "Expecting value"
    | c :: cs =>
      if c = dquote then
        match parseJsonStr (cs.length + 1) cs with
        | .ok (s, rest) => .ok (.str s, rest)
        | .error m => .error m
      else if c = '[' then
        parseJsonArr fuel (skipWs cs) true
      else if c = lbrace then
        parseJsonObj fuel (skipWs cs) true
      else if c = 'n' then
        if cs.take 3 = ['u', 'l', 'l'] then .ok (.null, cs.drop 3)
        else .error "Expecting value"
      else if c = 't' then
        if cs.take 3 = ['r', 'u', 'e'] then .ok (.bool true, cs.drop 3)
        else .error "Expecting value"
      else if c = 'f' then
        if cs.take 4 = ['a', 'l', 's', 'e'] then .ok (.bool false, cs.drop 4)
        else .error "Expecting value"
      else if c = '-' then
        match parseDigits cs with
        | ([], _) => .error "Expecting value"
        | (ds, rest) => .ok (.num (-(digitsToNat ds : Int)), rest)
      else if c.isDigit then
        let (ds, rest) := parseDigits (c :: cs)
        .ok (.num (digitsToNat ds : Int), rest)
      else .error "Expecting value"

/-- Parse the elements of a JSON array after the opening bracket; the
flag records whether no element has been read yet. -/
def parseJsonArr : Nat → List Char → Bool → Except String (Json × List Char)
  | 0, _, _ => .error "Expecting value"
  | fuel + 1, input, first =>
    match skipWs input with
    | [] => .error "Unterminated array"
    | c :: cs =>
      if c = ']' && first then .ok (.arr [], cs)
      else
        match parseJsonVal fuel (c :: cs) with
        | .error m => .error m
        | .ok (v, rest) =>
          match skipWs rest with
          | [] => .error "Unterminated array"
          | d :: ds =>
            if d = ']' then .ok (.arr [v], ds)
            else if d = ',' then
              match parseJsonArr fuel ds false with
              | .ok (.arr vs, rest2) => .ok (.arr (v :: vs), rest2)
              | .ok (j, rest2) => .ok (j, rest2)
              | .error m => .error m
            else .error "Expecting comma"

/-- Parse the members of a JSON object after the opening brace; the
flag records whether no member has been read yet. -/
def parseJsonObj : Nat → List Char → Bool → Except String (Json × List Char)
  | 0, _, _ => .error "Expecting value"
  | fuel + 1, input, first =>
    match skipWs input with
    | [] => .error "Unterminated object"
    | c :: cs =>
      if c = rbrace && first then .ok (.obj [], cs)
      else if c = dquote then
        match parseJsonStr (cs.length + 1) cs with
        | .error m => .error m
        | .ok (k, rest) =>
          match skipWs rest with
          | ':' :: rest2 =>
            match parseJsonVal fuel rest2 with
            | .error m => .error m
            | .ok (v, rest3) =>
              match skipWs rest3 with
              | [] => .error "Unterminated object"
              | d :: ds =>
                if d = rbrace then .ok (.obj [(k, v)], ds)
                else if d = ',' then
                  match parseJsonObj fuel ds false with
                  | .ok (.obj kvs, rest4) => .ok (.obj ((k, v) :: kvs), rest4)
                  | .ok (j, rest4) => .ok (j, rest4)
                  | .error m => .error m
                else .error "Expecting comma"
          | _ => .error "Expecting colon"
      else .error "Expecting property name"

end

/-- Embeds `json.load` on the artifact contents: parse one value and
require only trailing whitespace after it. -/
def jsonLoad (s : String) : Except String Json :=
  match parseJsonVal (s.toList.length + 1) s.toList with
  | .error m => .error m
  | .ok (v, rest) =>
    match skipWs rest with
    | [] => .ok v
    | _ => .error "Extra data"

/-!  ## Shell escaping (`shlex.quote`)

`JobDispatcher.__init__` shell-escapes every argument value with
`shlex.quote` before substituting it into the command template
(`dispatcher.py` lines 62-63).  We embed CPython's `shlex.quote` and a
POSIX-shell word lexer against which the escaping is verified. -/

/-- The punctuation characters `shlex.quote` leaves unquoted
(CPython's `_find_unsafe` pattern is the complement of the ASCII word
characters together with at-sign, percent, plus, equals, colon, comma,
dot, slash and hyphen). -/
def safePunct : List Char := ['@', '%', '+', '=', ':', ',', '.', '/', '-', '_']

/-- A character `shlex.quote` considers safe. -/
def isSafeChar (c : Char) : Bool := c.isAlphanum || safePunct.contains c

/-- The expansion of one character inside the single-quoted region:
an embedded single quote becomes the escape run from
`s.replace("'", ...)` in CPython's `shlex.quote`. -/
def escapeChar (c : Char) : List Char :=
  if c = squote then [squote, dquote, squote, dquote, squote] else [c]

/-- The quoted body of a string that needs quoting. -/
def escBody (s : List Char) : List Char := s.flatMap escapeChar

/-- Embeds CPython `shlex.quote`: empty strings become a pair of
single quotes, all-safe strings pass through, anything else is wrapped
in single quotes with embedded single quotes escaped. -/
def shlexQuoteList (s : List Char) : List Char :=
  if s.isEmpty then [squote, squote]
  else if s.all isSafeChar then s
  else squote :: (escBody s ++ [squote])

/-- `shlex.quote` on a `String`. -/
def shlexQuote (s : String) : String := String.mk (shlexQuoteList s.toList)

/-- Characters a POSIX shell treats specially outside quotes: word
separators, command separators, substitution and redirection
characters, globbing and comment characters. -/
def shellMeta : List Char :=
  [' ', tabChar, nlChar, ';', '|', '&', '$', btick,
   '(', ')', '<', '>', bslash, '*', '?', '#', '~']

/-- Lexer quoting mode: outside quotes, inside single quotes, inside
double quotes. -/
inductive QMode where
  | normal
  | single
  | double
deriving DecidableEq

/-- Lex one shell word spanning the whole input.  Returns the literal
value of the word, or `none` if the input contains an unquoted shell
metacharacter (so it is not a single plain word), an unterminated
quote, or a character that a double-quoted context would interpret. -/
def lexWordAux : QMode → List Char → List Char → Option (List Char)
  | .normal, [], acc => some acc
  | .normal, c :: cs, acc =>
    if c = squote then lexWordAux .single cs acc
    else if c = dquote then lexWordAux .double cs acc
    else if shellMeta.contains c then none
    else lexWordAux .normal cs (acc ++ [c])
  | .single, [], _ => none
  | .single, c :: cs, acc =>
    if c = squote then lexWordAux .normal cs acc
    else lexWordAux .single cs (acc ++ [c])
  | .double, [], _ => none
  | .double, c :: cs, acc =>
    if c = dquote then lexWordAux .normal cs acc
    else if c = '$' || c = btick || c = bslash then none
    else lexWordAux .double cs (acc ++ [c])

/-- Parse a command-line fragment as exactly one literal shell word. -/
def parseSingleLiteralWord (cmd : List Char) : Option (List Char) :=
  lexWordAux .normal cmd []

/-- Embeds `dispatcher.py` line 62: escape every argument value. -/
def escapedArgs (args : List (String × String)) : List (String × String) :=
  args.map fun kv => (kv.1, shlexQuote kv.2)

/-- Embeds `str.format` on the (pre-split) command template. -/
def formatTpl (tpl : List TplPart) (args : List (String × String)) : String :=
  tpl.foldl
    (fun acc part =>
      match part with
      | .lit s => acc ++ s
      | .arg k => acc ++ ((args.lookup k).getD ""))
    ""

/-- Embeds `dispatcher.py` line 63: the command string actually run. -/
def runArgsOf (cfg : JobConfig) (job : Job) : String :=
  formatTpl cfg.runArgsTemplate (escapedArgs job.args)

/-!  ## The Job Runner (`JobDispatcher`)

`do_job` is embedded as the list of externally visible events it
produces.  The external process is a parameter: it either completed
with a return code (having written some stderr), or raising an
exception carrying a traceback. -/

/-- A message payload: plain text or a parsed JSON blocks value. -/
inductive Payload where
  | text (s : String)
  | blocks (v : Json)

/-- Python truthiness of the message payload (`if not msg`). -/
def Payload.falsy : Payload → Bool
  | .text s => s.isEmpty
  | .blocks v => v.falsy

/-- Externally visible events of one job execution. -/
inductive Event where
  | notifyStart (channel : String) (msg : String)
  | runProc (runArgs : String)
  | markDone (jobId : Nat)
  | post (channel : String) (payload : Payload) (threadTs : Option String) (fmt : String)
  | postPermalinkTo (channel : String) (srcChannel : String)

/-- The channel an event is delivered to, when it is a delivery. -/
def Event.channel? : Event → Option String
  | .notifyStart ch _ => some ch
  | .post ch _ _ _ => some ch
  | .postPermalinkTo ch _ => some ch
  | _ => none

/-- Whether an event is a completion-time message delivery (a post of
the completion report or the permalink repost). -/
def Event.isCompletionDelivery : Event → Bool
  | .post _ _ _ _ => true
  | .postPermalinkTo _ _ => true
  | _ => false

/-- The outcome of `subprocess.run` inside `run_command`: either the
process completed with a return code (its stderr stream captured), or
invocation raised, with the traceback text. -/
inductive ProcOutcome where
  | completed (returncode : Int) (stderrContent : String)
  | raised (tb : String)

/-- Embeds `JobDispatcher.run_command` (lines 82-118): returns the
return code and the final content of the stderr artifact.  On an
invocation exception the traceback is printed to the stderr file and
the sentinel return code `-1` is used. -/
def run_command (outcome : ProcOutcome) : Int × String :=
  match outcome with
  | .completed rc stderrContent => (rc, stderrContent)
  | .raised tb => (-1, tb)

/-- Embeds `JobDispatcher.notify_start` (lines 120-124): the
about-to-start message goes to `settings.SLACK_LOGS_CHANNEL`. -/
def notify_start (st : Settings) (job : Job) : Event :=
  .notifyStart st.slackLogsChannel ("Command `" ++ job.type ++ "` about to start")

/-- The "no output" fallback message. -/
def noOutputMsg (job : Job) : String :=
  "No output found for command `" ++ job.type ++ "`"

/-- The generic success message. -/
def successMsg (job : Job) : String :=
  "Command `" ++ job.type ++ "` succeeded"

/-- The failure message (lines 151-157), before the optional
escalation suffix. -/
def failureMsgBase (st : Settings) (job : Job) (hostLogDir : String) : String :=
  "Command `" ++ job.type ++ "` failed.\n" ++
  "Find logs in " ++ hostLogDir ++ " on dokku3.\n" ++
  "Or check logs here with `showlogs head/tail/all`, e.g.\n" ++
  "* `@" ++ st.slackAppUsername ++ " showlogs tail error " ++ hostLogDir ++ "`\n" ++
  "* `@" ++ st.slackAppUsername ++ " showlogs all output " ++ hostLogDir ++ "`\n"

/-- Reading the stdout artifact in the success branch: `json.load`
for the `"blocks"` report format, plain `f.read()` otherwise. -/
def loadArtifact (cfg : JobConfig) (stdoutContent : String) : Except String Payload :=
  if cfg.reportFormat = "blocks" then
    match jsonLoad stdoutContent with
    | .ok v => .ok (.blocks v)
    | .error m => .error m
  else .ok (.text stdoutContent)

/-- Embeds `JobDispatcher.notify_end` (lines 126-177) as the list of
delivery events it performs; `.error` means the Python code raised (in
the `"blocks"` branch, from `json.load`) before posting anything. -/
def notify_end (st : Settings) (cfg : JobConfig) (job : Job) (hostLogDir : String)
    (rc : Int) (stdoutContent : String) : Except String (List Event) :=
  let error := rc != 0
  let repost := cfg.callTechSupportOnError && !job.isIm
  if !error then
    if cfg.reportStdout then
      match loadArtifact cfg stdoutContent with
      | .error m => .error m
      | .ok m0 =>
        let msg := if m0.falsy then Payload.text (noOutputMsg job) else m0
        .ok [.post job.channel msg job.threadTs cfg.reportFormat]
    else if cfg.reportSuccess then
      .ok [.post job.channel (.text (successMsg job)) job.threadTs cfg.reportFormat]
    else .ok []
  else
    let msg := failureMsgBase st job hostLogDir ++
      (if repost then "\nCalling tech-support." else "")
    let firstPost := Event.post job.channel (.text msg) job.threadTs "text"
    if repost then
      .ok [firstPost, .postPermalinkTo st.slackTechSupportChannel job.channel]
    else
      .ok [firstPost]

/-- Embeds `JobDispatcher.do_job` (lines 72-80) as its event trace:
notify start, run the command, mark the job done in the store, then
perform `notify_end`'s deliveries (none beyond the raise point if
`notify_end` raised — the job is already marked done by then). -/
def do_job (st : Settings) (cfg : JobConfig) (job : Job) (hostLogDir : String)
    (outcome : ProcOutcome) (stdoutContent : String) : List Event :=
  let rc := (run_command outcome).1
  [notify_start st job, .runProc (runArgsOf cfg job), .markDone job.id] ++
    (match notify_end st cfg job hostLogDir rc stdoutContent with
     | .ok evs => evs
     | .error _ => [])

/-!  ## Log directories (`set_up_log_dir`) -/

/-- A UTC wall-clock time, to second resolution, as used by
`datetime.now(timezone.utc).strftime("%Y%m%d-%H%M%S")`. -/
structure UtcTime where
  year : Nat
  month : Nat
  day : Nat
  hour : Nat
  minute : Nat
  second : Nat
deriving DecidableEq

/-- Zero-pad a numeral to two digits. -/
def pad2 (n : Nat) : String := if n < 10 then "0" ++ toString n else toString n

/-- Zero-pad a numeral to four digits. -/
def pad4 (n : Nat) : String :=
  if n < 10 then "000" ++ toString n
  else if n < 100 then "00" ++ toString n
  else if n < 1000 then "0" ++ toString n
  else toString n

/-- Embeds `strftime("%Y%m%d-%H%M%S")`: second resolution. -/
def timestampOf (t : UtcTime) : String :=
  pad4 t.year ++ pad2 t.month ++ pad2 t.day ++ "-" ++
    pad2 t.hour ++ pad2 t.minute ++ pad2 t.second

/-- The artifact paths computed by `set_up_log_dir` (paths as lists of
components, mirroring `pathlib` joining). -/
structure LogPaths where
  logDir : List String
  hostLogDir : List String
  stdoutPath : List String
  stderrPath : List String
deriving DecidableEq

/-- Embeds `JobDispatcher.set_up_log_dir` (lines 203-211). -/
def set_up_log_dir (st : Settings) (jobType : String) (t : UtcTime) : LogPaths :=
  let jobLogPath := [jobType, timestampOf t]
  { logDir := st.logsDir ++ jobLogPath
    hostLogDir := st.hostLogsDir ++ jobLogPath
    stdoutPath := st.logsDir ++ jobLogPath ++ ["stdout"]
    stderrPath := st.logsDir ++ jobLogPath ++ ["stderr"] }

/-!  ## The mention watcher (`MessageChecker.check_messages`)

Message texts are embedded as `List Char`.  The code strips URLs with
`re.sub(r"<http.+>", "", text)`: a greedy match that, from each literal
`<http`, consumes up to the *last* `>` on the same line. -/

/-- Substring test (Python's `in` on strings). -/
def isSub (needle hay : List Char) : Bool :=
  needle.isPrefixOf hay ||
    match hay with
    | [] => false
    | _ :: t => isSub needle t

/-- The largest index of a closing angle bracket in a list, if any. -/
def lastGtIdx : List Char → Option Nat
  | [] => none
  | c :: cs =>
    match lastGtIdx cs with
    | some j => some (j + 1)
    | none => if c = '>' then some 0 else none

/-- The portion of the input before the first newline (the span a `.`
in a Python regex may cover). -/
def lineOf (s : List Char) : List Char := s.takeWhile (fun c => !(c = nlChar))

/-- Greedy match of `.+>` at the current position: the index just past
the last `>` on the current line, provided at least one character
precedes it. -/
def greedyUrlTail (rest : List Char) : Option Nat :=
  match lastGtIdx (lineOf rest) with
  | some j => if 1 ≤ j then some (j + 1) else none
  | none => none

/-- One scanning step of `re.sub(r"<http.+>", "", text)`: fuel-indexed
left-to-right scan, removing each greedy match. -/
def stripUrlsAux : Nat → List Char → List Char
  | 0, s => s
  | fuel + 1, s =>
    if ('<' :: 'h' :: 't' :: 't' :: 'p' :: []).isPrefixOf s then
      match greedyUrlTail (s.drop 5) with
      | some k => stripUrlsAux fuel ((s.drop 5).drop k)
      | none =>
        match s with
        | [] => []
        | c :: cs => c :: stripUrlsAux fuel cs
    else
      match s with
      | [] => []
      | c :: cs => c :: stripUrlsAux fuel cs

/-- Embeds `re.sub(r"<http.+>", "", text)` from `check_messages`. -/
def stripUrls (s : List Char) : List Char := stripUrlsAux s.length s

/-- A message returned by the mention search. -/
structure Message where
  text : List Char
  channelId : String
  ts : String
deriving DecidableEq

/-- The externally visible actions of the mention watcher for one
message. -/
inductive MEvent where
  | react (channelId ts reaction : String)
  | repost (channel : String) (srcChannelId srcTs : String)
deriving DecidableEq

/-- Embeds the per-message body of `MessageChecker.check_messages`
(lines 268-289): strip URLs, skip if the keyword is gone, otherwise
react and repost the permalink to the support channel. -/
def check_message (keyword : List Char) (reaction channel : String) (m : Message) :
    List MEvent :=
  let text := stripUrls m.text
  if !(isSub keyword text) then []
  else
    [.react m.channelId m.ts reaction, .repost channel m.channelId m.ts]

/-- Embeds the loop of `MessageChecker.check_messages` over the search
results. -/
def check_messages (keyword : List Char) (reaction channel : String)
    (msgs : List Message) : List MEvent :=
  msgs.flatMap (check_message keyword reaction channel)

/-- Spec view of a message's URL spans: each URL token starts at a
literal `<http` and extends to the *first* following `>`; returns the
text outside all URL tokens together with the URL tokens themselves. -/
def splitUrlChunks : Nat → List Char → List Char × List (List Char)
  | 0, s => (s, [])
  | fuel + 1, s =>
    if ('<' :: 'h' :: 't' :: 't' :: 'p' :: []).isPrefixOf s then
      let rest := s.drop 5
      match rest.findIdx? (fun c => c = '>') with
      | some j =>
        let (outside, urls) := splitUrlChunks fuel (rest.drop (j + 1))
        (outside, (('<' :: 'h' :: 't' :: 't' :: 'p' :: []) ++ rest.take (j + 1)) :: urls)
      | none =>
        match s with
        | [] => ([], [])
        | c :: cs =>
          let (outside, urls) := splitUrlChunks fuel cs
          (c :: outside, urls)
    else
      match s with
      | [] => ([], [])
      | c :: cs =>
        let (outside, urls) := splitUrlChunks fuel cs
        (c :: outside, urls)

/-- Spec view: the keyword occurs inside some URL of the message. -/
def keywordInsideUrl (keyword : List Char) (text : List Char) : Bool :=
  ((splitUrlChunks text.length text).2).any (fun u => isSub keyword u)

/-- Spec view: the keyword occurs in the message text outside every
URL. -/
def keywordOutsideUrl (keyword : List Char) (text : List Char) : Bool :=
  isSub keyword (splitUrlChunks text.length text).1

/-!  ## The scheduler and the dispatch loop (`run_once`)

`run_once` (dispatcher.py lines 31-48) drives the scheduler.  The
scheduler module itself is not among the sources at hand, so its
operations are modelled from the spec (section 4.1). -/

/-- A suppression window. -/
structure Suppression where
  jobType : String
  startAt : Int
  endAt : Int
deriving DecidableEq

/-- A job record inside the store, as needed by the dispatch loop. -/
structure SJob where
  id : Nat
  jobType : String
  scheduledAt : Int
deriving DecidableEq

/-- The scheduler's state: pending jobs and suppression windows. -/
structure SchedState where
  pending : List SJob
  reserved : List SJob
  suppressions : List Suppression
deriving DecidableEq

/-- Modelled from the spec: a job type is suppressed iff some window
with that type has `start_at <= now <= end_at` (spec section 4.1,
scheduler module not under the sources at hand). -/
def isSuppressed (sups : List Suppression) (t : String) (now : Int) : Bool :=
  sups.any fun s => s.jobType == t && decide (s.startAt ≤ now ∧ now ≤ s.endAt)

/-- Modelled from the spec: `remove_expired_suppressions(now)` deletes
every suppression whose `end_at < now` (spec section 4.1, scheduler
module not under the sources at hand). -/
def remove_expired_suppressions (st : SchedState) (now : Int) : SchedState :=
  { st with suppressions := st.suppressions.filter fun s => !decide (s.endAt < now) }

/-- Whether a pending job is eligible for reservation now. -/
def eligible (sups : List Suppression) (now : Int) (j : SJob) : Bool :=
  decide (j.scheduledAt ≤ now) && !isSuppressed sups j.jobType now

/-- Remove the first list element satisfying the predicate, returning
it and the remaining list. -/
def extractFirst (p : α → Bool) : List α → Option (α × List α)
  | [] => none
  | x :: xs =>
    if p x then some (x, xs)
    else
      match extractFirst p xs with
      | some (y, ys) => some (y, x :: ys)
      | none => none

/-- Modelled from the spec: `reserve_next()` atomically finds one
pending job whose `scheduled_at <= now` and whose type is not
suppressed, flips it to reserved and returns it; otherwise returns
none without side effects (spec section 4.1, scheduler module not
under the sources at hand). -/
def reserve_next (st : SchedState) (now : Int) : Option (SJob × SchedState) :=
  match extractFirst (eligible st.suppressions now) st.pending with
  | some (j, rest) => some (j, { st with pending := rest, reserved := st.reserved ++ [j] })
  | none => none

/-- Events of one dispatch cycle. -/
inductive DEvent where
  | removeExpired
  | launch (jobId : Nat)
deriving DecidableEq

/-- The reservation loop of `run_once`: keep reserving until
`reserve_next` returns none, launching one job runner per reserved
job (fuel-indexed; fuel at least the number of pending jobs makes it
run to exhaustion). -/
def drain (now : Int) : Nat → SchedState → List DEvent × SchedState
  | 0, st => ([], st)
  | fuel + 1, st =>
    match reserve_next st now with
    | none => ([], st)
    | some (j, st') =>
      let (evs, st'') := drain now fuel st'
      (DEvent.launch j.id :: evs, st'')

/-- Embeds `run_once` (dispatcher.py lines 31-48): clear expired
suppressions, then reserve and launch until no job is available. -/
def run_once (st : SchedState) (now : Int) : List DEvent × SchedState :=
  let st1 := remove_expired_suppressions st now
  let (evs, st2) := drain now st1.pending.length st1
  (DEvent.removeExpired :: evs, st2)

/-!  ## The deploy webhook (`webserver/github.py`) -/

/-- A suppression record as seen by the webhook handler: the scheduler
stores its timestamps as strings there, and `schedule_deploy` compares
them with `str(scheduler._now())` as strings. -/
structure WSuppression where
  jobType : String
  startAt : String
  endAt : String
deriving DecidableEq

/-- Externally visible actions of `schedule_deploy`. -/
inductive GEvent where
  | scheduleJob (job : String) (channel : String) (delaySeconds : Nat)
  | warnSuppressed (channel : String) (endAt : String)
deriving DecidableEq

/-- Embeds the suppression lookup inside `schedule_deploy`
(github.py lines 82-90): the first suppression whose `start_at` string
is lexicographically below the string form of now and whose type is
the deploy job; `end_at` is not consulted. -/
def active_suppression (sups : List WSuppression) (job : String) (now : String) :
    Option WSuppression :=
  sups.find? fun s => decide (s.startAt < now) && (s.jobType == job)

/-- Embeds `schedule_deploy` (github.py lines 70-101): abort on an
unknown project, otherwise schedule the deploy with a 60 second delay
and warn if a suppression is considered active. -/
def schedule_deploy (knownJobs : List String) (project : String) (channel : String)
    (sups : List WSuppression) (now : String) : Except Nat (List GEvent) :=
  let job := project ++ "_deploy"
  if !(knownJobs.contains job) then .error 400
  else
    .ok ([GEvent.scheduleJob job channel 60] ++
      (match active_suppression sups job now with
       | some s => [GEvent.warnSuppressed channel s.endAt]
       | none => []))

/-!  ## Concrete fixtures

Concrete settings, jobs and configurations used to instantiate the
theorems (mirroring the shapes used by the repository's tests). -/

/-- Concrete settings fixture. -/
def st0 : Settings :=
  { slackLogsChannel := "logs"
    slackTechSupportChannel := "C0000TECH"
    slackAppUsername := "test_username"
    logsDir := ["extras", "logs"]
    hostLogsDir := ["host", "logs"] }

/-- Concrete job fixture. -/
def job0 : Job :=
  { id := 1
    type := "test_good_job"
    args := []
    channel := "channel"
    threadTs := some "1234567.89"
    isIm := false }

/-- Concrete job fixture: a direct-message job. -/
def jobIm : Job :=
  { id := 2
    type := "test_good_job"
    args := []
    channel := "D000IM"
    threadTs := none
    isIm := true }

/-- Concrete configuration fixture: stdout reporting as plain text. -/
def cfgTextReport : JobConfig :=
  { runArgsTemplate := [.lit "python jobs.py"]
    reportStdout := true
    reportSuccess := true
    reportFormat := "text"
    callTechSupportOnError := true }

/-- Concrete configuration fixture: stdout reporting as blocks. -/
def cfgBlocksReport : JobConfig :=
  { runArgsTemplate := [.lit "python jobs.py"]
    reportStdout := true
    reportSuccess := true
    reportFormat := "blocks"
    callTechSupportOnError := true }

/-!  ## Theorems -/

/-- Every event list `notify_end` returns consists of completion-time
deliveries only. -/
theorem notify_end_all_deliveries (st : Settings) (cfg : JobConfig) (job : Job)
    (d : String) (rc : Int) (out : String) (evs : List Event)
    (h : notify_end st cfg job d rc out = .ok evs) :
    ∀ e ∈ evs, e.isCompletionDelivery = true := by
  by_cases herr : (rc != 0) = true
  · by_cases hrep : (cfg.callTechSupportOnError && !job.isIm) = true
    · simp [notify_end, herr, hrep] at h
      subst h
      simp [Event.isCompletionDelivery]
    · simp [notify_end, herr, hrep] at h
      subst h
      simp [Event.isCompletionDelivery]
  · have herr' : (rc != 0) = false := by simpa using herr
    by_cases hstd : cfg.reportStdout = true
    · cases hload : loadArtifact cfg out with
      | error m =>
        simp [notify_end, herr', hstd, hload] at h
      | ok m0 =>
        by_cases hf : m0.falsy = true
        · simp [notify_end, herr', hstd, hload, hf] at h
          subst h
          simp [Event.isCompletionDelivery]
        · simp [notify_end, herr', hstd, hload, hf] at h
          subst h
          simp [Event.isCompletionDelivery]
    · by_cases hsuc : cfg.reportSuccess = true
      · simp [notify_end, herr', hstd, hsuc] at h
        subst h
        simp [Event.isCompletionDelivery]
      · simp [notify_end, herr', hstd, hsuc] at h
        subst h
        simp

/-- C1: within one `do_job` execution the externally visible steps are
strictly ordered: the about-to-start message, then the process run,
then marking the job done in the store, and only then `notify_end`'s
completion deliveries — so the store transition to done precedes every
completion delivery, for every exit code and configuration. -/
theorem c1_do_job_event_order (st : Settings) (cfg : JobConfig) (job : Job)
    (d : String) (outcome : ProcOutcome) (out : String) :
    ∃ tail,
      do_job st cfg job d outcome out =
        notify_start st job :: Event.runProc (runArgsOf cfg job) ::
          Event.markDone job.id :: tail ∧
      ∀ e ∈ tail, e.isCompletionDelivery = true := by
  refine ⟨_, rfl, ?_⟩
  cases h : notify_end st cfg job d (run_command outcome).1 out with
  | ok evs =>
    intro e he
    simp only [List.nil_append] at he
    exact notify_end_all_deliveries st cfg job d (run_command outcome).1 out evs h e he
  | error m =>
    intro e he
    simp at he

/-- Witness for C1 at a concrete job execution. -/
theorem c1_do_job_event_order_witness :
    ∃ tail,
      do_job st0 cfgTextReport job0 "hostdir" (.completed 0 "") "out" =
        notify_start st0 job0 :: Event.runProc (runArgsOf cfgTextReport job0) ::
          Event.markDone job0.id :: tail ∧
      ∀ e ∈ tail, e.isCompletionDelivery = true :=
  c1_do_job_event_order st0 cfgTextReport job0 "hostdir" (.completed 0 "") "out"

/-- C2: for a failing job, escalation is gated on
`call_tech_support_on_error` and on the destination not being a direct
message: with escalation, exactly the failure post (escalation notice
appended) to the job's own channel and thread followed by the
permalink repost to the tech-support channel; otherwise only the
failure post, without the permalink repost. -/
theorem c2_escalation_gating (st : Settings) (cfg : JobConfig) (job : Job)
    (d : String) (rc : Int) (out : String) (h : rc ≠ 0) :
    (cfg.callTechSupportOnError = true → job.isIm = false →
      notify_end st cfg job d rc out =
        .ok [Event.post job.channel
               (.text (failureMsgBase st job d ++ "\nCalling tech-support."))
               job.threadTs "text",
             Event.postPermalinkTo st.slackTechSupportChannel job.channel]) ∧
    (job.isIm = true ∨ cfg.callTechSupportOnError = false →
      notify_end st cfg job d rc out =
        .ok [Event.post job.channel (.text (failureMsgBase st job d))
               job.threadTs "text"]) := by
  have hrc : (rc != 0) = true := by simpa using h
  constructor
  · intro hc hi
    simp [notify_end, hrc, hc, hi]
  · intro hor
    rcases hor with hi | hc
    · simp [notify_end, hrc, hi]
    · simp [notify_end, hrc, hc]

/-- Witness for C2: both gate outcomes at concrete failing jobs. -/
theorem c2_escalation_gating_witness :
    notify_end st0 cfgTextReport job0 "hostdir" 2 "" =
      .ok [Event.post job0.channel
             (.text (failureMsgBase st0 job0 "hostdir" ++ "\nCalling tech-support."))
             job0.threadTs "text",
           Event.postPermalinkTo st0.slackTechSupportChannel job0.channel] ∧
    notify_end st0 cfgTextReport jobIm "hostdir" 2 "" =
      .ok [Event.post jobIm.channel (.text (failureMsgBase st0 jobIm "hostdir"))
             jobIm.threadTs "text"] :=
  ⟨(c2_escalation_gating st0 cfgTextReport job0 "hostdir" 2 "" (by decide)).1 rfl rfl,
   (c2_escalation_gating st0 cfgTextReport jobIm "hostdir" 2 "" (by decide)).2 (Or.inl rfl)⟩

/-- C3: when process invocation raises, `run_command` swallows the
exception, writes the traceback into the stderr artifact, and returns
the sentinel exit code `-1`; that exit code is nonzero, so `notify_end`
takes the failure-reporting path and posts the failure message. -/
theorem c3_run_command_exception (st : Settings) (cfg : JobConfig) (job : Job)
    (d : String) (out : String) (tb : String) :
    run_command (.raised tb) = (-1, tb) ∧
    (run_command (.raised tb)).1 ≠ 0 ∧
    ∃ msg evs,
      notify_end st cfg job d (run_command (.raised tb)).1 out =
        .ok (Event.post job.channel (.text msg) job.threadTs "text" :: evs) := by
  have hne : ((-1 : Int) != 0) = true := by decide
  refine ⟨rfl, show (-1 : Int) ≠ 0 by decide, ?_⟩
  by_cases hrep : (cfg.callTechSupportOnError && !job.isIm) = true
  · exact ⟨failureMsgBase st job d ++ "\nCalling tech-support.",
      [.postPermalinkTo st.slackTechSupportChannel job.channel],
      by simp [notify_end, run_command, hrep, hne]⟩
  · exact ⟨failureMsgBase st job d, [],
      by simp [notify_end, run_command, hrep, hne]⟩

/-- C4 counterexample: with the `"blocks"` report format and an empty
stdout artifact, `notify_end` raises a JSON decode error (from
`json.load` on the empty file) and delivers nothing — no "no output"
message is posted, contrary to the claim's "for every report format,
including the blocks format". -/
theorem c4_counterexample :
    notify_end st0 cfgBlocksReport job0 "hostdir" 0 "" =
      Except.error "Expecting value" ∧
    notify_end st0 cfgBlocksReport job0 "hostdir" 0 "" ≠
      Except.ok [Event.post job0.channel (Payload.text (noOutputMsg job0))
        job0.threadTs "blocks"] := by
  constructor
  · rfl
  · intro h
    rw [show notify_end st0 cfgBlocksReport job0 "hostdir" 0 "" =
          Except.error "Expecting value" from rfl] at h
    exact Except.noConfusion h

/-- C4 amended: on exit code 0, with stdout reporting in a non-blocks
format the artifact content is posted and an empty artifact yields a
"no output" message instead; with the blocks format an empty artifact
makes `json.load` raise so nothing is posted; without stdout reporting
a generic success message is posted when configured, and nothing is
sent when neither reporting option is set. -/
theorem c4_success_reporting (st : Settings) (cfg : JobConfig) (job : Job)
    (d : String) (out : String) :
    (cfg.reportStdout = true → cfg.reportFormat ≠ "blocks" → out = "" →
      notify_end st cfg job d 0 out =
        .ok [Event.post job.channel (.text (noOutputMsg job)) job.threadTs
               cfg.reportFormat]) ∧
    (cfg.reportStdout = true → cfg.reportFormat ≠ "blocks" → out ≠ "" →
      notify_end st cfg job d 0 out =
        .ok [Event.post job.channel (.text out) job.threadTs cfg.reportFormat]) ∧
    (cfg.reportStdout = true → cfg.reportFormat = "blocks" →
      notify_end st cfg job d 0 "" = Except.error "Expecting value") ∧
    (cfg.reportStdout = false → cfg.reportSuccess = true →
      notify_end st cfg job d 0 out =
        .ok [Event.post job.channel (.text (successMsg job)) job.threadTs
               cfg.reportFormat]) ∧
    (cfg.reportStdout = false → cfg.reportSuccess = false →
      notify_end st cfg job d 0 out = .ok []) := by
  have h0 : ((0 : Int) != 0) = false := by decide
  refine ⟨?_, ?_, ?_, ?_, ?_⟩
  · intro hstd hfmt hout
    subst hout
    simp [notify_end, loadArtifact, h0, hstd, hfmt, Payload.falsy,
      show String.isEmpty "" = true from rfl]
  · intro hstd hfmt hout
    have hne : out.isEmpty = false := by
      cases he : out.isEmpty
      · rfl
      · exact absurd ((String.isEmpty_iff out).mp he) hout
    simp [notify_end, loadArtifact, h0, hstd, hfmt, Payload.falsy, hne]
  · intro hstd hfmt
    simp [notify_end, loadArtifact, h0, hstd, hfmt,
      show jsonLoad "" = Except.error "Expecting value" from rfl]
  · intro hstd hsuc
    simp [notify_end, h0, hstd, hsuc]
  · intro hstd hsuc
    simp [notify_end, h0, hstd, hsuc]

/-- Witness for C4's amended theorem: the empty-artifact fallback with
the text format, and the JSON decode error with the blocks format, at
concrete inputs. -/
theorem c4_success_reporting_witness :
    notify_end st0 cfgTextReport job0 "hostdir" 0 "" =
      .ok [Event.post job0.channel (.text (noOutputMsg job0)) job0.threadTs
             cfgTextReport.reportFormat] ∧
    notify_end st0 cfgBlocksReport job0 "hostdir" 0 "" =
      Except.error "Expecting value" :=
  ⟨(c4_success_reporting st0 cfgTextReport job0 "hostdir" "").1 rfl (by decide) rfl,
   (c4_success_reporting st0 cfgBlocksReport job0 "hostdir" "").2.2.1 rfl rfl⟩

/-- C5 counterexample: the about-to-start message is delivered to the
fixed logs channel, not to the job's own destination channel. -/
theorem c5_counterexample :
    (notify_start st0 job0).channel? = some "logs" ∧
    job0.channel = "channel" ∧
    (notify_start st0 job0).channel? ≠ some job0.channel := by
  refine ⟨rfl, rfl, by decide⟩

/-- C5 amended: for every job, the about-to-start message is sent to
the settings' logs channel (`SLACK_LOGS_CHANNEL`), and it is the first
event of the job execution, before the command is executed. -/
theorem c5_notify_start_before_run (st : Settings) (cfg : JobConfig) (job : Job)
    (d : String) (outcome : ProcOutcome) (out : String) :
    (do_job st cfg job d outcome out).head? =
      some (Event.notifyStart st.slackLogsChannel
        ("Command `" ++ job.type ++ "` about to start")) ∧
    (do_job st cfg job d outcome out)[1]? =
      some (Event.runProc (runArgsOf cfg job)) := by
  exact ⟨rfl, rfl⟩

/-- `extractFirst` removes exactly one element. -/
theorem extractFirst_length {p : α → Bool} :
    ∀ {xs : List α} {y : α} {ys : List α},
      extractFirst p xs = some (y, ys) → ys.length + 1 = xs.length := by
  intro xs
  induction xs with
  | nil => intro y ys h; simp [extractFirst] at h
  | cons x rest ih =>
    intro y ys h
    by_cases hp : p x = true
    · simp [extractFirst, hp] at h
      rw [← h.2]
      simp
    · simp [extractFirst, hp] at h
      cases hrec : extractFirst p rest with
      | none => rw [hrec] at h; simp at h
      | some pr =>
        obtain ⟨q, qs⟩ := pr
        rw [hrec] at h
        simp at h
        rcases h with ⟨h1, h2⟩
        subst h2
        have := ih hrec
        simp only [List.length_cons] at this ⊢
        omega

/-- A successful `reserve_next` shrinks the pending queue by one. -/
theorem reserve_next_length {st : SchedState} {now : Int} {j : SJob} {st' : SchedState}
    (h : reserve_next st now = some (j, st')) :
    st'.pending.length + 1 = st.pending.length := by
  unfold reserve_next at h
  cases hx : extractFirst (eligible st.suppressions now) st.pending with
  | none => rw [hx] at h; simp at h
  | some pr =>
    obtain ⟨q, qs⟩ := pr
    rw [hx] at h
    simp at h
    rcases h with ⟨h1, h2⟩
    subst h2
    simpa using extractFirst_length hx

/-- With enough fuel, the drain loop launches one runner per
reservation and stops only when `reserve_next` returns none. -/
theorem drain_spec (now : Int) :
    ∀ (fuel : Nat) (st : SchedState), st.pending.length ≤ fuel →
      ∃ js : List SJob,
        (drain now fuel st).1 = js.map (fun j => DEvent.launch j.id) ∧
        js.length + (drain now fuel st).2.pending.length = st.pending.length ∧
        reserve_next (drain now fuel st).2 now = none := by
  intro fuel
  induction fuel with
  | zero =>
    intro st hle
    have hnil : st.pending = [] := List.length_eq_zero.mp (Nat.le_zero.mp hle)
    refine ⟨[], rfl, by simp [drain], ?_⟩
    simp only [drain]
    unfold reserve_next
    rw [hnil]
    rfl
  | succ fuel ih =>
    intro st hle
    cases hres : reserve_next st now with
    | none =>
      refine ⟨[], by simp [drain, hres], by simp [drain, hres], by simp [drain, hres]⟩
    | some pr =>
      obtain ⟨j1, s1⟩ := pr
      have hlen := reserve_next_length hres
      have hle' : s1.pending.length ≤ fuel := by omega
      obtain ⟨js, hmap, hcount, hnone⟩ := ih s1 hle'
      refine ⟨j1 :: js, ?_, ?_, ?_⟩
      · simp [drain, hres, hmap]
      · simp only [drain, hres]
        simpa using by omega
      · simp [drain, hres, hnone]

/-- C6: every dispatch cycle first removes expired suppressions
exactly once, then launches one runner per successful reservation,
stopping only when the store has no further eligible job: the launch
events are in bijection with the jobs removed from the pending queue. -/
theorem c6_run_once_cycle (st : SchedState) (now : Int) :
    ∃ js : List SJob,
      (run_once st now).1 = DEvent.removeExpired :: js.map (fun j => DEvent.launch j.id) ∧
      (run_once st now).1.count DEvent.removeExpired = 1 ∧
      js.length + (run_once st now).2.pending.length =
        (remove_expired_suppressions st now).pending.length ∧
      reserve_next (run_once st now).2 now = none := by
  obtain ⟨js, hmap, hcount, hnone⟩ :=
    drain_spec now (remove_expired_suppressions st now).pending.length
      (remove_expired_suppressions st now) (Nat.le_refl _)
  refine ⟨js, ?_, ?_, ?_, ?_⟩
  · simp [run_once, hmap]
  · have hzero :
        (js.map (fun j => DEvent.launch j.id)).count DEvent.removeExpired = 0 := by
      rw [List.count_eq_zero]
      intro hmem
      simp only [List.mem_map] at hmem
      obtain ⟨j, _, hj⟩ := hmem
      exact DEvent.noConfusion hj
    simp [run_once, hmap, List.count_cons_self, hzero]
  · simpa [run_once] using hcount
  · simpa [run_once] using hnone

/-- Keyword fixture for the mention watcher. -/
def kwTechSupport : List Char := "tech-support".toList

/-- A message whose keyword occurs both inside a URL and outside every
URL, but where the outside occurrence lies between two URL tokens. -/
def msgBetweenUrls : Message :=
  { text := "see <http://a.example> tech-support <http://b.example/tech-support>".toList
    channelId := "C123"
    ts := "1600000000.000100" }

/-- C7 counterexample: this message contains the keyword inside a URL
and also outside every URL, yet `check_messages` neither reacts nor
reposts — the greedy URL pattern swallows the keyword occurrence
between the two URL tokens. -/
theorem c7_counterexample :
    keywordInsideUrl kwTechSupport msgBetweenUrls.text = true ∧
    keywordOutsideUrl kwTechSupport msgBetweenUrls.text = true ∧
    check_messages kwTechSupport "sos" "C0TECH" [msgBetweenUrls] = [] := by
  refine ⟨rfl, rfl, rfl⟩

/-- C7 amended: a message whose keyword does not survive the code's
(greedy) URL stripping is neither reacted to nor reposted; a message
whose keyword does survive the stripping — in particular one with an
occurrence outside all URLs that is not flanked by URL tokens — is
reacted to exactly once and its permalink reposted exactly once. -/
theorem c7_mention_url_filtering (keyword : List Char) (reaction channel : String)
    (m : Message) :
    (isSub keyword (stripUrls m.text) = false →
      check_message keyword reaction channel m = []) ∧
    (isSub keyword (stripUrls m.text) = true →
      check_message keyword reaction channel m =
        [.react m.channelId m.ts reaction, .repost channel m.channelId m.ts] ∧
      ((check_message keyword reaction channel m).filter
        (fun e => match e with | .react _ _ _ => true | _ => false)).length = 1 ∧
      ((check_message keyword reaction channel m).filter
        (fun e => match e with | .repost _ _ _ => true | _ => false)).length = 1) := by
  constructor
  · intro h
    simp [check_message, h]
  · intro h
    refine ⟨by simp [check_message, h], ?_, ?_⟩
    · simp [check_message, h]
    · simp [check_message, h]

/-- Witness for C7's amended theorem: a skipped message whose only
keyword occurrence is inside a URL, and a reacted-and-reposted message
with a surviving occurrence. -/
theorem c7_mention_url_filtering_witness :
    check_message kwTechSupport "sos" "C0TECH"
      { text := "see <http://only.example/tech-support> please".toList
        channelId := "C1", ts := "1.0" } = [] ∧
    check_message kwTechSupport "sos" "C0TECH"
      { text := "<http://x.example> need tech-support now".toList
        channelId := "C2", ts := "2.0" } =
      [.react "C2" "2.0" "sos", .repost "C0TECH" "C2" "2.0"] :=
  ⟨(c7_mention_url_filtering kwTechSupport "sos" "C0TECH"
      { text := "see <http://only.example/tech-support> please".toList
        channelId := "C1", ts := "1.0" }).1 rfl,
   ((c7_mention_url_filtering kwTechSupport "sos" "C0TECH"
      { text := "<http://x.example> need tech-support now".toList
        channelId := "C2", ts := "2.0" }).2 rfl).1⟩

/-- Time fixture: a concrete start second. -/
def t0 : UtcTime := ⟨2025, 1, 1, 12, 0, 0⟩

/-- Job fixture: same type as `job8b`, different id. -/
def job8a : Job :=
  { id := 11, type := "test_job", args := [], channel := "channel"
    threadTs := none, isIm := false }

/-- Job fixture: same type as `job8a`, different id. -/
def job8b : Job :=
  { id := 12, type := "test_job", args := [], channel := "channel"
    threadTs := none, isIm := false }

/-- C8 counterexample: two distinct jobs of the same type started
within the same second are given the same log directory (and hence the
same stdout and stderr artifact paths), contradicting the claim that
log directories of distinct concurrent jobs are always distinct. -/
theorem c8_counterexample :
    job8a ≠ job8b ∧
    job8a.type = job8b.type ∧
    set_up_log_dir st0 job8a.type t0 = set_up_log_dir st0 job8b.type t0 ∧
    (set_up_log_dir st0 job8a.type t0).stdoutPath =
      (set_up_log_dir st0 job8b.type t0).stdoutPath := by
  refine ⟨by decide, rfl, rfl, rfl⟩

/-- C8 amended: the log directory is derived from the job type and a
second-resolution start timestamp, and two executions collide exactly
when both coincide: directories are distinct whenever the job types
differ or the formatted start timestamps differ, while two jobs of the
same type started within the same second share a directory. -/
theorem c8_log_dir_distinct (st : Settings) (t1 t2 : String) (u1 u2 : UtcTime)
    (h : t1 ≠ t2 ∨ timestampOf u1 ≠ timestampOf u2) :
    (set_up_log_dir st t1 u1).logDir ≠ (set_up_log_dir st t2 u2).logDir := by
  intro he
  simp only [set_up_log_dir] at he
  have h2 := List.append_cancel_left he
  simp only [List.cons.injEq, and_true] at h2
  rcases h with h | h
  · exact h h2.1
  · exact h h2.2

/-- Witness for C8's amended theorem: different job types at the same
second give distinct directories. -/
theorem c8_log_dir_distinct_witness :
    (set_up_log_dir st0 "a_job" t0).logDir ≠ (set_up_log_dir st0 "b_job" t0).logDir :=
  c8_log_dir_distinct st0 "a_job" "b_job" t0 t0 (Or.inl (by decide))

/-- No shell metacharacter is a `shlex.quote`-safe character. -/
theorem safe_char_not_meta {c : Char} (h : isSafeChar c = true) :
    shellMeta.contains c = false := by
  cases hm : shellMeta.contains c
  · rfl
  · exfalso
    have hmem : c ∈ shellMeta := by simpa using hm
    have hall : shellMeta.all (fun c => !(isSafeChar c)) = true := by decide
    have hc := List.all_eq_true.mp hall c hmem
    rw [h] at hc
    simp at hc

/-- A safe character is not a single quote. -/
theorem safe_char_ne_squote {c : Char} (h : isSafeChar c = true) : c ≠ squote := by
  intro he
  subst he
  exact absurd h (by decide)

/-- A safe character is not a double quote. -/
theorem safe_char_ne_dquote {c : Char} (h : isSafeChar c = true) : c ≠ dquote := by
  intro he
  subst he
  exact absurd h (by decide)

/-- In normal mode the lexer consumes a run of safe characters
verbatim. -/
theorem lexWordAux_safe (s : List Char) :
    ∀ acc, s.all isSafeChar = true →
      lexWordAux .normal s acc = some (acc ++ s) := by
  induction s with
  | nil => intro acc _; simp [lexWordAux]
  | cons c cs ih =>
    intro acc h
    rw [List.all_cons] at h
    have hc := (Bool.and_eq_true_iff.mp h).1
    have hcs := (Bool.and_eq_true_iff.mp h).2
    rw [show lexWordAux .normal (c :: cs) acc =
          (if c = squote then lexWordAux .single cs acc
           else if c = dquote then lexWordAux .double cs acc
           else if shellMeta.contains c then none
           else lexWordAux .normal cs (acc ++ [c])) from rfl]
    rw [if_neg (safe_char_ne_squote hc), if_neg (safe_char_ne_dquote hc),
      if_neg (show ¬(shellMeta.contains c = true) by
        rw [safe_char_not_meta hc]
        exact Bool.false_ne_true)]
    rw [ih (acc ++ [c]) hcs]
    simp

/-- In single-quote mode the lexer consumes the escaped body followed
by the closing quote, yielding the original characters. -/
theorem lexWordAux_escBody (s : List Char) :
    ∀ acc, lexWordAux .single (escBody s ++ [squote]) acc = some (acc ++ s) := by
  induction s with
  | nil => intro acc; simp [escBody, lexWordAux]
  | cons c cs ih =>
    intro acc
    by_cases hc : c = squote
    · subst hc
      rw [show escBody (squote :: cs) =
            squote :: dquote :: squote :: dquote :: squote :: escBody cs from rfl]
      rw [show lexWordAux .single
            ((squote :: dquote :: squote :: dquote :: squote :: escBody cs) ++ [squote]) acc =
          lexWordAux .single (escBody cs ++ [squote]) (acc ++ [squote]) from by
        simp +decide [lexWordAux, squote, dquote]]
      rw [ih (acc ++ [squote])]
      simp
    · rw [show escBody (c :: cs) = c :: escBody cs from by simp [escBody, escapeChar, hc]]
      rw [show lexWordAux .single ((c :: escBody cs) ++ [squote]) acc =
          lexWordAux .single (escBody cs ++ [squote]) (acc ++ [c]) from by
        simp [lexWordAux, hc]]
      rw [ih (acc ++ [c])]
      simp

/-- The central escaping theorem: for every argument value, the
`shlex.quote`d form lexes as exactly one shell word whose literal
content is the original value — it contains no unquoted shell
metacharacter, so it cannot terminate the word or start another
command. -/
theorem shlexQuote_single_word (s : List Char) :
    parseSingleLiteralWord (shlexQuoteList s) = some s := by
  by_cases he : s.isEmpty
  · have : s = [] := by cases s with | nil => rfl | cons a l => simp [List.isEmpty] at he
    subst this
    rfl
  · by_cases hs : s.all isSafeChar
    · rw [show shlexQuoteList s = s from by simp [shlexQuoteList, he, hs]]
      exact lexWordAux_safe s [] hs
    · rw [show shlexQuoteList s = squote :: (escBody s ++ [squote]) from by
        simp [shlexQuoteList, he, hs]]
      rw [show parseSingleLiteralWord (squote :: (escBody s ++ [squote])) =
          lexWordAux .single (escBody s ++ [squote]) [] from by
        simp [parseSingleLiteralWord, lexWordAux]]
      rw [lexWordAux_escBody s []]
      simp

/-- `List.lookup` through a value-mapping of an association list. -/
theorem lookup_map_value (l : List (String × String)) (k : String)
    (f : String → String) :
    (l.map fun kv => (kv.1, f kv.2)).lookup k = (l.lookup k).map f := by
  induction l with
  | nil => rfl
  | cons a rest ih =>
    simp only [List.map_cons, List.lookup]
    by_cases hk : (k == a.1) = true
    · simp [hk]
    · simp [hk, ih]

/-- C9: every argument value is passed through `shlex.quote` before
substitution into the command template, and the quoted form is a
single literal shell word with exactly the original value as content —
shell metacharacters in the value (`;`, `|`, `$( )`, quotes, ...)
cannot inject additional shell commands. -/
theorem c9_args_shell_escaped (args : List (String × String)) (k v : String)
    (h : args.lookup k = some v) :
    (escapedArgs args).lookup k = some (shlexQuote v) ∧
    parseSingleLiteralWord (shlexQuote v).toList = some v.toList := by
  constructor
  · rw [show escapedArgs args = args.map fun kv => (kv.1, shlexQuote kv.2) from rfl]
    rw [lookup_map_value args k shlexQuote, h]
    rfl
  · rw [show (shlexQuote v).toList = shlexQuoteList v.toList from rfl]
    exact shlexQuote_single_word v.toList

/-- Witness for C9 at a value full of shell metacharacters. -/
theorem c9_args_shell_escaped_witness :
    (escapedArgs [("thing_to_echo", "<poem>; rm -rf $HOME | `boom`")]).lookup
        "thing_to_echo" =
      some (shlexQuote "<poem>; rm -rf $HOME | `boom`") ∧
    parseSingleLiteralWord (shlexQuote "<poem>; rm -rf $HOME | `boom`").toList =
      some "<poem>; rm -rf $HOME | `boom`".toList :=
  c9_args_shell_escaped [("thing_to_echo", "<poem>; rm -rf $HOME | `boom`")]
    "thing_to_echo" "<poem>; rm -rf $HOME | `boom`" (by decide)

/-- Replace a suppression's `end_at` (used to state that the warning
decision never consults `end_at`). -/
def setEndAt (f : String → String) (s : WSuppression) : WSuppression :=
  { s with endAt := f s.endAt }

/-- Whether a `schedule_deploy` event is the deploys-suppressed
warning. -/
def GEvent.isWarn : GEvent → Bool
  | .warnSuppressed _ _ => true
  | _ => false

/-- The suppression lookup succeeds exactly when some record matches
on the string comparison of `start_at` and the job type. -/
theorem active_suppression_isSome (sups : List WSuppression) (job now : String) :
    (active_suppression sups job now).isSome = true ↔
      ∃ s ∈ sups, s.startAt < now ∧ s.jobType = job := by
  unfold active_suppression
  rw [List.find?_isSome]
  constructor
  · rintro ⟨s, hmem, hp⟩
    refine ⟨s, hmem, ?_, ?_⟩
    · exact of_decide_eq_true (Bool.and_eq_true_iff.mp hp).1
    · exact eq_of_beq (Bool.and_eq_true_iff.mp hp).2
  · rintro ⟨s, hmem, hlt, hty⟩
    exact ⟨s, hmem, by simp [hlt, hty]⟩

/-- C10: after scheduling the deploy job (with its 60 second delay),
`schedule_deploy` posts the deploys-suppressed warning if and only if
some suppression record has the deploy's job type and a `start_at`
string lexicographically below the string form of now; the records'
`end_at` fields are never consulted, so rewriting every `end_at` (for
example to a window that has already ended) does not change the
decision. -/
theorem c10_deploy_suppression_warning (knownJobs : List String)
    (project channel : String) (sups : List WSuppression) (now : String)
    (h : knownJobs.contains (project ++ "_deploy") = true) :
    ∃ evs, schedule_deploy knownJobs project channel sups now = Except.ok evs ∧
      evs.head? = some (GEvent.scheduleJob (project ++ "_deploy") channel 60) ∧
      ((evs.any GEvent.isWarn = true) ↔
        ∃ s ∈ sups, s.startAt < now ∧ s.jobType = project ++ "_deploy") ∧
      ∀ f : String → String,
        (active_suppression (sups.map (setEndAt f)) (project ++ "_deploy") now).isSome =
          (active_suppression sups (project ++ "_deploy") now).isSome := by
  refine ⟨[GEvent.scheduleJob (project ++ "_deploy") channel 60] ++
      (match active_suppression sups (project ++ "_deploy") now with
       | some s => [GEvent.warnSuppressed channel s.endAt]
       | none => []), ?_, ?_, ?_, ?_⟩
  · simp only [schedule_deploy, h, Bool.not_true, Bool.false_eq_true, if_false]
  · cases active_suppression sups (project ++ "_deploy") now <;> rfl
  · rw [← active_suppression_isSome sups (project ++ "_deploy") now]
    cases hact : active_suppression sups (project ++ "_deploy") now with
    | some s => simp [GEvent.isWarn]
    | none => simp [GEvent.isWarn]
  · intro f
    unfold active_suppression
    rw [List.find?_map]
    rw [show ((fun s => decide (s.startAt < now) && (s.jobType == project ++ "_deploy")) ∘
        setEndAt f) =
      (fun s => decide (s.startAt < now) && (s.jobType == project ++ "_deploy")) from rfl]
    cases List.find? (fun s => decide (s.startAt < now) &&
        (s.jobType == project ++ "_deploy")) sups <;> rfl

/-- Witness for C10: a deploy of a known project with one suppression
whose window has already ended but whose `start_at` is in the past. -/
theorem c10_deploy_suppression_warning_witness :
    ∃ evs, schedule_deploy ["op_deploy"] "op" "channel"
        [⟨"op_deploy", "2025-01-01 00:00:00", "2025-01-02 00:00:00"⟩]
        "2025-06-01 00:00:00" = Except.ok evs ∧
      evs.head? = some (GEvent.scheduleJob ("op" ++ "_deploy") "channel" 60) ∧
      ((evs.any GEvent.isWarn = true) ↔
        ∃ s ∈ [(⟨"op_deploy", "2025-01-01 00:00:00", "2025-01-02 00:00:00"⟩ : WSuppression)],
          s.startAt < "2025-06-01 00:00:00" ∧ s.jobType = "op" ++ "_deploy") ∧
      ∀ f : String → String,
        (active_suppression
            ([⟨"op_deploy", "2025-01-01 00:00:00", "2025-01-02 00:00:00"⟩].map (setEndAt f))
            ("op" ++ "_deploy") "2025-06-01 00:00:00").isSome =
          (active_suppression [⟨"op_deploy", "2025-01-01 00:00:00", "2025-01-02 00:00:00"⟩]
            ("op" ++ "_deploy") "2025-06-01 00:00:00").isSome :=
  c10_deploy_suppression_warning ["op_deploy"] "op" "channel"
    [⟨"op_deploy", "2025-01-01 00:00:00", "2025-01-02 00:00:00"⟩]
    "2025-06-01 00:00:00" (by decide)

end Bennettbot
